import Mathlib

/-!
Verification of the RecordStore CLI (a Go command-line tool that keeps a list
of user records as a JSON array in a single backing file).

The development is a shallow embedding of the two near-identical Go sources,
`src/main.go` and `src/unnamed/part_000`.  Pure data flow is modelled
directly:

* the body of the backing file is a `String` (Go reads the whole file with
  io.ReadAll; `len(data) == 0` becomes `data = ""`);
* the output writer is modelled as the string a call writes before it
  returns, paired with the `error` value it returns (`OpResult`); writes to
  the in-memory writer are assumed to succeed, so the `writer.Write` error
  branches of the source never fire in the model;
* Go `error` values are identified by their message text (`GoErr`);
* `encoding/json` is library code, not code of this repository, so decoding
  is abstracted into a `JsonCodec` parameter (an arbitrary function from
  text to a decode result), while `json.Marshal` of the fixed `User` shape
  is implemented concretely (`marshalUser`, `marshalUsers`), matching the
  field order and punctuation Go produces for the `User` struct tags;
* the file system is the content of the single backing file:
  `none` means the file does not exist, `some s` that it exists with body
  `s`.  The Go code opens the file with O_RDWR|O_CREATE and only ever reads
  it, which the model mirrors in `openFile` and `Perform`.

Functions from `src/main.go` keep their source names at top level; the two
functions on which `src/unnamed/part_000` differs from `src/main.go`
(`addItem` and `removeUser`) are embedded again in namespace `Part000`.
-/

/-- Go `error` values, identified by their message string. -/
abbrev GoErr := String

/-- `src/main.go` line 13. -/
def ErrFileNameFlagMissing : GoErr := "-fileName flag has to be specified"

/-- `src/main.go` line 14. -/
def ErrOperationFlagMissing : GoErr := "-operation flag has to be specified"

/-- `src/main.go` line 15. -/
def ErrItemFlagMissing : GoErr := "-item flag has to be specified"

/-- `src/main.go` line 16. -/
def ErrIDFlagMissing : GoErr := "-id flag has to be specified"

/-- The `User` struct of `src/main.go` lines 20-24: id, email, age. -/
structure User where
  ID : String
  Email : String
  Age : Int
deriving DecidableEq, Repr

/-- The `Arguments` map of `src/main.go` line 28.  The Go code reads exactly
the four keys `fileName`, `operation`, `item`, `id`; a missing key yields
`""` in Go, so a structure with four string fields is an exact model. -/
structure Arguments where
  fileName : String
  operation : String
  item : String
  id : String
deriving DecidableEq, Repr

/-- Result of one operation call: the `error` it returns (`none` = Go `nil`)
and the bytes it wrote to the output writer before returning. -/
structure OpResult where
  err : Option GoErr
  out : String
deriving DecidableEq, Repr

/-- JSON string encoding used by Go `json.Marshal` on the string fields of
`User`, on the list of characters (quote and backslash escaped; the claims
only exercise characters that Go emits verbatim). -/
def jsonEscapeList : List Char → List Char
  | [] => []
  | ch :: rest =>
    (if ch = '"' then ['\\', '"'] else if ch = '\\' then ['\\', '\\']
     else [ch]) ++ jsonEscapeList rest

/-- `jsonEscapeList` lifted to `String`. -/
def jsonEscape (s : String) : String :=
  String.mk (jsonEscapeList s.data)

/-- A JSON string literal: `jsonEscape` between double quotes. -/
def jsonString (s : String) : String :=
  "\"" ++ jsonEscape s ++ "\""

/-- `json.Marshal` of one `User` value: field order and punctuation follow
the struct tags of `src/main.go` lines 20-24
(`\x7b"id":...,"email":...,"age":...\x7d`, no spaces). -/
def marshalUser (u : User) : String :=
  "\x7b\"id\":" ++ jsonString u.ID ++ ",\"email\":" ++ jsonString u.Email
    ++ ",\"age\":" ++ toString u.Age ++ "\x7d"

/-- `json.Marshal` of a `[]User` slice: the elements comma-separated between
square brackets. -/
def marshalUsers (l : List User) : String :=
  "[" ++ String.intercalate "," (l.map marshalUser) ++ "]"

/-- The `encoding/json` decoder, abstracted: `decList` models
`json.Unmarshal(data, &[]User)`, `decUser` models
`json.Unmarshal(data, &User)`.  Theorems quantify over the codec; concrete
witnesses use `demoCodec` below. -/
structure JsonCodec where
  decList : String → Except GoErr (List User)
  decUser : String → Except GoErr User

/-- First element of `l` whose `ID` equals `id`; models the
`for _, user := range item` scan with an equality test and early return
used by `addItem` and `findUserById` in `src/main.go`. -/
def firstUserById (id : String) : List User → Option User
  | [] => none
  | u :: rest => if u.ID = id then some u else firstUserById id rest

/-- The splice loop of `removeUser` (`src/main.go` lines 187-200): at the
first index whose `ID` equals `id` the element is dropped
(`append(item[:i], item[i+1:]...)`) and the loop returns; `none` when no
element matches. -/
def removeFirstById (id : String) : List User → Option (List User)
  | [] => none
  | u :: rest =>
    if u.ID = id then some rest
    else
      match removeFirstById id rest with
      | some rest2 => some (u :: rest2)
      | none => none

/-- `addItem` of `src/main.go` lines 50-91.  `readRes` is the outcome of
`io.ReadAll(file)`.  On an empty file the raw `item` text is written to the
writer unparsed (lines 55-61); otherwise the file is decoded, the item is
decoded, a duplicate id produces the collision message, and otherwise the
extended list is marshalled to the writer. -/
def addItem (c : JsonCodec) (readRes : Except GoErr String) (item : String) :
    OpResult :=
  match readRes with
  | .error e => ⟨some e, ""⟩
  | .ok data =>
    if data = "" then ⟨none, item⟩
    else
      match c.decList data with
      | .error e => ⟨some e, ""⟩
      | .ok itemArray =>
        match c.decUser item with
        | .error e => ⟨some e, ""⟩
        | .ok user =>
          match firstUserById user.ID itemArray with
          | some _ => ⟨none, "Item with id " ++ user.ID ++ " already exists"⟩
          | none => ⟨none, marshalUsers (itemArray ++ [user])⟩

/-- `listItems` of `src/main.go` lines 95-121: empty file writes `""`,
otherwise decode then re-marshal to the writer. -/
def listItems (c : JsonCodec) (readRes : Except GoErr String) : OpResult :=
  match readRes with
  | .error e => ⟨some e, ""⟩
  | .ok data =>
    if data = "" then ⟨none, ""⟩
    else
      match c.decList data with
      | .error e => ⟨some e, ""⟩
      | .ok item => ⟨none, marshalUsers item⟩

/-- `findUserById` of `src/main.go` lines 128-163: empty file writes `""`;
otherwise the first record with the given id is marshalled, or `""` is
written when none matches. -/
def findUserById (c : JsonCodec) (readRes : Except GoErr String)
    (id : String) : OpResult :=
  match readRes with
  | .error e => ⟨some e, ""⟩
  | .ok data =>
    if data = "" then ⟨none, ""⟩
    else
      match c.decList data with
      | .error e => ⟨some e, ""⟩
      | .ok item =>
        match firstUserById id item with
        | some user => ⟨none, marshalUser user⟩
        | none => ⟨none, ""⟩

/-- `removeUser` of `src/main.go` lines 169-206: empty file writes `""`;
otherwise the list with the first match removed is marshalled, or the
not-found message is written when no record matches. -/
def removeUser (c : JsonCodec) (readRes : Except GoErr String)
    (id : String) : OpResult :=
  match readRes with
  | .error e => ⟨some e, ""⟩
  | .ok data =>
    if data = "" then ⟨none, ""⟩
    else
      match c.decList data with
      | .error e => ⟨some e, ""⟩
      | .ok item =>
        match removeFirstById id item with
        | some remaining => ⟨none, marshalUsers remaining⟩
        | none => ⟨none, "Item with id " ++ id ++ " not found"⟩

/-- The backing file: `none` when no file exists at the given path,
`some s` when it exists with body `s`. -/
abbrev FileSys := Option String

/-- `os.OpenFile(fileName, os.O_RDWR|os.O_CREATE, 0644)` followed by
`io.ReadAll`: an absent file is created empty; the read returns the body.
Result: (file system after the open, bytes read). -/
def openFile (fs : FileSys) : FileSys × String :=
  match fs with
  | none => (some "", "")
  | some s => (some s, s)

/-- The `switch operation` statement of `Perform`
(`src/main.go` lines 228-265), given the bytes read from the file. -/
def dispatch (c : JsonCodec) (args : Arguments) (data : String) : OpResult :=
  if args.operation = "add" then
    if args.item = "" then ⟨some ErrItemFlagMissing, ""⟩
    else addItem c (.ok data) args.item
  else if args.operation = "list" then listItems c (.ok data)
  else if args.operation = "findById" then
    if args.id = "" then ⟨some ErrIDFlagMissing, ""⟩
    else findUserById c (.ok data) args.id
  else if args.operation = "remove" then
    if args.id = "" then ⟨some ErrIDFlagMissing, ""⟩
    else removeUser c (.ok data) args.id
  else ⟨some ("Operation " ++ args.operation ++ " not allowed!"), ""⟩

/-- `Perform` of `src/main.go` lines 211-267: flag checks, then open (and
possibly create) the backing file, then dispatch on the operation.  The Go
code never writes to the file, so the file system component of the result
is the state right after `openFile` (or the untouched input state when a
flag check fails before the open). -/
def Perform (c : JsonCodec) (args : Arguments) (fs : FileSys) :
    FileSys × OpResult :=
  if args.fileName = "" then (fs, ⟨some ErrFileNameFlagMissing, ""⟩)
  else if args.operation = "" then (fs, ⟨some ErrOperationFlagMissing, ""⟩)
  else ((openFile fs).fst, dispatch c args (openFile fs).snd)

namespace Part000

/-- `addItem` of `src/unnamed/part_000` lines 48-80.  Unlike the
`src/main.go` version there is no empty-file special case: the file bytes
are always passed to the list decoder (on a zero-byte file Go
`json.Unmarshal` then fails). -/
def addItem (c : JsonCodec) (readRes : Except GoErr String) (item : String) :
    OpResult :=
  match readRes with
  | .error e => ⟨some e, ""⟩
  | .ok data =>
    match c.decList data with
    | .error e => ⟨some e, ""⟩
    | .ok itemList =>
      match c.decUser item with
      | .error e => ⟨some e, ""⟩
      | .ok user =>
        match firstUserById user.ID itemList with
        | some _ => ⟨none, "Item with id " ++ user.ID ++ " already exists"⟩
        | none => ⟨none, marshalUsers (itemList ++ [user])⟩

/-- `removeUser` of `src/unnamed/part_000` lines 158-190: an empty file
writes the not-found message; otherwise the first match is spliced out
(`break` instead of early return) and the resulting list - unchanged when
nothing matched - is always marshalled to the writer. -/
def removeUser (c : JsonCodec) (readRes : Except GoErr String)
    (id : String) : OpResult :=
  match readRes with
  | .error e => ⟨some e, ""⟩
  | .ok data =>
    if data = "" then ⟨none, "Item with id " ++ id ++ " not found"⟩
    else
      match c.decList data with
      | .error e => ⟨some e, ""⟩
      | .ok item =>
        match removeFirstById id item with
        | some remaining => ⟨none, marshalUsers remaining⟩
        | none => ⟨none, marshalUsers item⟩

end Part000

/-- Sample record used in concrete witnesses (the record of the usage
comment at the end of `src/main.go`, with the email of the spec scenario). -/
def u1 : User := ⟨"1", "a@b.com", 34⟩

/-- Second sample record for concrete witnesses. -/
def u2 : User := ⟨"2", "c@d.com", 50⟩

/-- The JSON text of `u1`, exactly as Go would marshal it. -/
def item1 : String := "\x7b\"id\":\"1\",\"email\":\"a@b.com\",\"age\":34\x7d"

/-- The JSON text of `u2`, exactly as Go would marshal it. -/
def item2 : String := "\x7b\"id\":\"2\",\"email\":\"c@d.com\",\"age\":50\x7d"

/-- Concrete codec instance for witnesses: defined on the handful of texts
the witnesses use, agreeing with Go `encoding/json` on each of them
(zero-byte input and non-JSON input fail, the listed encodings decode to
the values they encode). -/
def demoCodec : JsonCodec where
  decList := fun s =>
    if s = "" then .error "unexpected end of JSON input"
    else if s = "[]" then .ok []
    else if s = marshalUsers [u1] then .ok [u1]
    else if s = marshalUsers [u2] then .ok [u2]
    else if s = marshalUsers [u1, u2] then .ok [u1, u2]
    else .error "invalid character"
  decUser := fun s =>
    if s = item1 then .ok u1
    else if s = item2 then .ok u2
    else .error "invalid character"

/-- A list with no record carrying `id` has no first match. -/
theorem firstUserById_eq_none (id : String) (l : List User)
    (h : ∀ x ∈ l, x.ID ≠ id) : firstUserById id l = none := by
  induction l with
  | nil => rfl
  | cons a t ih =>
      have ha : a.ID ≠ id := h a (List.mem_cons_self a t)
      simp only [firstUserById, if_neg ha]
      exact ih fun x hx => h x (List.mem_cons_of_mem a hx)

/-- A member carrying `id` guarantees the scan stops at some record. -/
theorem firstUserById_exists (id : String) (l : List User) (x : User)
    (hx : x ∈ l) (hid : x.ID = id) : ∃ y, firstUserById id l = some y := by
  induction l with
  | nil => cases hx
  | cons a t ih =>
      by_cases ha : a.ID = id
      · exact ⟨a, by simp [firstUserById, ha]⟩
      · rcases List.mem_cons.mp hx with rfl | hxt
        · exact absurd hid ha
        · obtain ⟨y, hy⟩ := ih hxt
          exact ⟨y, by simp [firstUserById, ha, hy]⟩

/-- When every record before `u` misses `id` and `u` carries it, the scan
returns `u`. -/
theorem firstUserById_first (id : String) (pre : List User) (u : User)
    (post : List User) (hu : u.ID = id) (hpre : ∀ v ∈ pre, v.ID ≠ id) :
    firstUserById id (pre ++ u :: post) = some u := by
  induction pre with
  | nil => simp [firstUserById, hu]
  | cons a t ih =>
      have ha : a.ID ≠ id := hpre a (List.mem_cons_self a t)
      simp only [List.cons_append, firstUserById, if_neg ha]
      exact ih fun v hv => hpre v (List.mem_cons_of_mem a hv)

/-- A list with no record carrying `id` is left untouched by the splice. -/
theorem removeFirstById_eq_none (id : String) (l : List User)
    (h : ∀ x ∈ l, x.ID ≠ id) : removeFirstById id l = none := by
  induction l with
  | nil => rfl
  | cons a t ih =>
      have ha : a.ID ≠ id := h a (List.mem_cons_self a t)
      have ht := ih fun x hx => h x (List.mem_cons_of_mem a hx)
      simp [removeFirstById, ha, ht]

/-- Splicing removes exactly the first record carrying `id`, keeping the
records around it in order. -/
theorem removeFirstById_first (id : String) (pre : List User) (u : User)
    (post : List User) (hu : u.ID = id) (hpre : ∀ v ∈ pre, v.ID ≠ id) :
    removeFirstById id (pre ++ u :: post) = some (pre ++ post) := by
  induction pre with
  | nil => simp [removeFirstById, hu]
  | cons a t ih =>
      have ha : a.ID ≠ id := hpre a (List.mem_cons_self a t)
      have ht := ih fun v hv => hpre v (List.mem_cons_of_mem a hv)
      simp [removeFirstById, ha, ht]

/-- Claim C1: on a non-empty parseable backing file, adding an item whose
id collides with a stored record writes the collision message and leaves
the stored collection unchanged; with a fresh id the record is appended at
the end and the full marshalled list is written to the output. -/
theorem addItem_collision_or_append (c : JsonCodec)
    (data item fn idArg : String) (l : List User) (u : User)
    (hne : data ≠ "") (hl : c.decList data = .ok l)
    (hu : c.decUser item = .ok u) (hfn : fn ≠ "") :
    ((∃ x ∈ l, x.ID = u.ID) →
      addItem c (.ok data) item
        = ⟨none, "Item with id " ++ u.ID ++ " already exists"⟩)
    ∧ ((∀ x ∈ l, x.ID ≠ u.ID) →
      addItem c (.ok data) item = ⟨none, marshalUsers (l ++ [u])⟩)
    ∧ (Perform c ⟨fn, "add", item, idArg⟩ (some data)).fst = some data := by
  refine ⟨?_, ?_, ?_⟩
  · rintro ⟨x, hx, hxid⟩
    obtain ⟨y, hy⟩ := firstUserById_exists u.ID l x hx hxid
    simp [addItem, hne, hl, hu, hy]
  · intro h
    simp [addItem, hne, hl, hu, firstUserById_eq_none u.ID l h]
  · simp [Perform, openFile, hfn]

/-- Witness for C1 at a concrete file and item: a duplicate id yields the
collision message, a fresh id yields the extended marshalled list. -/
theorem addItem_collision_or_append_witness :
    addItem demoCodec (.ok (marshalUsers [u1])) item1
      = ⟨none, "Item with id 1 already exists"⟩
    ∧ addItem demoCodec (.ok (marshalUsers [u1])) item2
      = ⟨none, marshalUsers [u1, u2]⟩ :=
  ⟨(addItem_collision_or_append demoCodec (marshalUsers [u1]) item1
      "users.json" "" [u1] u1 (by decide) rfl rfl (by decide)).1
      ⟨u1, by decide, rfl⟩,
   (addItem_collision_or_append demoCodec (marshalUsers [u1]) item2
      "users.json" "" [u1] u2 (by decide) rfl rfl (by decide)).2.1
      (by decide)⟩

/-- Claim C2: FindById writes empty output on a zero-byte file; on a
parseable non-empty file it writes empty output when no record carries the
id, and exactly the marshalled first matching record otherwise. -/
theorem findUserById_spec (c : JsonCodec) (data id : String) (l : List User)
    (hne : data ≠ "") (hl : c.decList data = .ok l) :
    findUserById c (.ok "") id = ⟨none, ""⟩
    ∧ ((∀ x ∈ l, x.ID ≠ id) → findUserById c (.ok data) id = ⟨none, ""⟩)
    ∧ (∀ pre u post, l = pre ++ u :: post → u.ID = id →
        (∀ v ∈ pre, v.ID ≠ id) →
        findUserById c (.ok data) id = ⟨none, marshalUser u⟩) := by
  refine ⟨rfl, ?_, ?_⟩
  · intro h
    simp [findUserById, hne, hl, firstUserById_eq_none id l h]
  · rintro pre u post rfl hu hpre
    simp [findUserById, hne, hl, firstUserById_first id pre u post hu hpre]

/-- Witness for C2 at a concrete two-record file: a missing id gives empty
output, the id of the second record gives exactly that record. -/
theorem findUserById_spec_witness :
    findUserById demoCodec (.ok (marshalUsers [u1, u2])) "9" = ⟨none, ""⟩
    ∧ findUserById demoCodec (.ok (marshalUsers [u1, u2])) "2"
      = ⟨none, marshalUser u2⟩ :=
  ⟨(findUserById_spec demoCodec (marshalUsers [u1, u2]) "9" [u1, u2]
      (by decide) rfl).2.1 (by decide),
   (findUserById_spec demoCodec (marshalUsers [u1, u2]) "2" [u1, u2]
      (by decide) rfl).2.2 [u1] u2 [] rfl rfl (by decide)⟩

/-- Claim C3: on a non-empty parseable file, remove drops exactly the first
record carrying the id, keeps the others in order and writes the marshalled
remainder; when no record carries the id the stored collection is unchanged
and the not-found message is written. -/
theorem removeUser_spec (c : JsonCodec) (data id fn itemArg : String)
    (l : List User) (hne : data ≠ "") (hl : c.decList data = .ok l)
    (hfn : fn ≠ "") :
    (∀ pre u post, l = pre ++ u :: post → u.ID = id →
      (∀ v ∈ pre, v.ID ≠ id) →
      removeUser c (.ok data) id = ⟨none, marshalUsers (pre ++ post)⟩)
    ∧ ((∀ x ∈ l, x.ID ≠ id) →
      removeUser c (.ok data) id
        = ⟨none, "Item with id " ++ id ++ " not found"⟩
      ∧ (Perform c ⟨fn, "remove", itemArg, id⟩ (some data)).fst
        = some data) := by
  constructor
  · rintro pre u post rfl hu hpre
    simp [removeUser, hne, hl, removeFirstById_first id pre u post hu hpre]
  · intro h
    constructor
    · simp [removeUser, hne, hl, removeFirstById_eq_none id l h]
    · simp [Perform, openFile, hfn]

/-- Witness for C3 at a concrete two-record file: removing the first record
leaves the marshalled second one; removing a missing id writes the
not-found message. -/
theorem removeUser_spec_witness :
    removeUser demoCodec (.ok (marshalUsers [u1, u2])) "1"
      = ⟨none, marshalUsers [u2]⟩
    ∧ removeUser demoCodec (.ok (marshalUsers [u1, u2])) "9"
      = ⟨none, "Item with id 9 not found"⟩ :=
  ⟨(removeUser_spec demoCodec (marshalUsers [u1, u2]) "1" "users.json" ""
      [u1, u2] (by decide) rfl (by decide)).1
      [] u1 [u2] rfl rfl (by decide),
   ((removeUser_spec demoCodec (marshalUsers [u1, u2]) "9" "users.json" ""
      [u1, u2] (by decide) rfl (by decide)).2
      (by decide)).1⟩

/-- Claim C7: with the fileName flag present, any operation string outside
add, list, findById, remove (and other than the empty string) makes Perform
fail with the dedicated message and write nothing. -/
theorem perform_unknown_operation (c : JsonCodec) (args : Arguments)
    (fs : FileSys) (hfn : args.fileName ≠ "") (hop : args.operation ≠ "")
    (h1 : args.operation ≠ "add") (h2 : args.operation ≠ "list")
    (h3 : args.operation ≠ "findById") (h4 : args.operation ≠ "remove") :
    (Perform c args fs).snd
      = ⟨some ("Operation " ++ args.operation ++ " not allowed!"), ""⟩ := by
  simp [Perform, dispatch, hfn, hop, h1, h2, h3, h4]

/-- Witness for C7 on the operation string delete. -/
theorem perform_unknown_operation_witness :
    (Perform demoCodec ⟨"users.json", "delete", "", ""⟩ (some "")).snd
      = ⟨some "Operation delete not allowed!", ""⟩ :=
  perform_unknown_operation demoCodec ⟨"users.json", "delete", "", ""⟩
    (some "") (by decide) (by decide) (by decide) (by decide) (by decide)
    (by decide)

/-- Claim C8: each required flag has its own distinct missing-flag error
(fileName, operation, item for add, id for findById and remove), the four
errors are pairwise distinct, and in each case nothing is written to the
output. -/
theorem perform_missing_flag_errors (c : JsonCodec) (args : Arguments)
    (fs : FileSys) :
    (args.fileName = "" →
      Perform c args fs = (fs, ⟨some ErrFileNameFlagMissing, ""⟩))
    ∧ (args.fileName ≠ "" → args.operation = "" →
      Perform c args fs = (fs, ⟨some ErrOperationFlagMissing, ""⟩))
    ∧ (args.fileName ≠ "" → args.operation = "add" → args.item = "" →
      (Perform c args fs).snd = ⟨some ErrItemFlagMissing, ""⟩)
    ∧ (args.fileName ≠ "" →
      (args.operation = "findById" ∨ args.operation = "remove") →
      args.id = "" → (Perform c args fs).snd = ⟨some ErrIDFlagMissing, ""⟩)
    ∧ (ErrFileNameFlagMissing ≠ ErrOperationFlagMissing
      ∧ ErrFileNameFlagMissing ≠ ErrItemFlagMissing
      ∧ ErrFileNameFlagMissing ≠ ErrIDFlagMissing
      ∧ ErrOperationFlagMissing ≠ ErrItemFlagMissing
      ∧ ErrOperationFlagMissing ≠ ErrIDFlagMissing
      ∧ ErrItemFlagMissing ≠ ErrIDFlagMissing) := by
  obtain ⟨fn, op, it, idv⟩ := args
  refine ⟨?_, ?_, ?_, ?_, by decide⟩
  · intro h
    simp only at h
    simp [Perform, h]
  · intro hfn hop
    simp only at hfn hop
    simp [Perform, hfn, hop]
  · intro hfn hop hit
    simp only at hfn hop hit
    subst hop hit
    simp [Perform, dispatch, hfn]
  · intro hfn hop hid
    simp only at hfn hop hid
    subst hid
    rcases hop with rfl | rfl <;> simp [Perform, dispatch, hfn]

/-- Witness for C8: all four missing-flag cases at concrete arguments. -/
theorem perform_missing_flag_errors_witness :
    Perform demoCodec ⟨"", "add", "x", ""⟩ (some "")
      = (some "", ⟨some ErrFileNameFlagMissing, ""⟩)
    ∧ Perform demoCodec ⟨"users.json", "", "", ""⟩ (some "")
      = (some "", ⟨some ErrOperationFlagMissing, ""⟩)
    ∧ (Perform demoCodec ⟨"users.json", "add", "", ""⟩ (some "")).snd
      = ⟨some ErrItemFlagMissing, ""⟩
    ∧ (Perform demoCodec ⟨"users.json", "findById", "", ""⟩ (some "")).snd
      = ⟨some ErrIDFlagMissing, ""⟩
    ∧ (Perform demoCodec ⟨"users.json", "remove", "", ""⟩ (some "")).snd
      = ⟨some ErrIDFlagMissing, ""⟩ :=
  ⟨(perform_missing_flag_errors demoCodec ⟨"", "add", "x", ""⟩
      (some "")).1 rfl,
   (perform_missing_flag_errors demoCodec ⟨"users.json", "", "", ""⟩
      (some "")).2.1 (by decide) rfl,
   (perform_missing_flag_errors demoCodec ⟨"users.json", "add", "", ""⟩
      (some "")).2.2.1 (by decide) rfl rfl,
   (perform_missing_flag_errors demoCodec ⟨"users.json", "findById", "", ""⟩
      (some "")).2.2.2.1 (by decide) (Or.inl rfl) rfl,
   (perform_missing_flag_errors demoCodec ⟨"users.json", "remove", "", ""⟩
      (some "")).2.2.2.1 (by decide) (Or.inr rfl) rfl⟩

/-- Claim C9: a file read failure, a decode failure on the file body, or a
decode failure on the item text each abort the operation with that very
error and with nothing written to the output, across all four operations. -/
theorem ops_error_propagation (c : JsonCodec) (e : GoErr)
    (data item id : String) (hne : data ≠ "") :
    addItem c (.error e) item = ⟨some e, ""⟩
    ∧ listItems c (.error e) = ⟨some e, ""⟩
    ∧ findUserById c (.error e) id = ⟨some e, ""⟩
    ∧ removeUser c (.error e) id = ⟨some e, ""⟩
    ∧ (c.decList data = .error e →
      addItem c (.ok data) item = ⟨some e, ""⟩
      ∧ listItems c (.ok data) = ⟨some e, ""⟩
      ∧ findUserById c (.ok data) id = ⟨some e, ""⟩
      ∧ removeUser c (.ok data) id = ⟨some e, ""⟩)
    ∧ (c.decUser item = .error e →
      (∀ lst, c.decList data = .ok lst →
        addItem c (.ok data) item = ⟨some e, ""⟩)) := by
  refine ⟨rfl, rfl, rfl, rfl, ?_, ?_⟩
  · intro h
    exact ⟨by simp [addItem, hne, h], by simp [listItems, hne, h],
      by simp [findUserById, hne, h], by simp [removeUser, hne, h]⟩
  · intro hu lst hl
    simp [addItem, hne, hl, hu]

/-- Witness for C9: a concrete read failure, a concrete undecodable file
body, and a concrete undecodable item over a decodable file body. -/
theorem ops_error_propagation_witness :
    addItem demoCodec (.error "read failure") item1
      = ⟨some "read failure", ""⟩
    ∧ listItems demoCodec (.ok "garbage") = ⟨some "invalid character", ""⟩
    ∧ addItem demoCodec (.ok "[]") "notjson"
      = ⟨some "invalid character", ""⟩ :=
  ⟨(ops_error_propagation demoCodec "read failure" "garbage" item1 "1"
      (by decide)).1,
   ((ops_error_propagation demoCodec "invalid character" "garbage" "x" "1"
      (by decide)).2.2.2.2.1 rfl).2.1,
   (ops_error_propagation demoCodec "invalid character" "[]" "notjson" "1"
      (by decide)).2.2.2.2.2 rfl [] rfl⟩

/-- Claim C10: no invocation writes to the backing file: an existing file
keeps its exact body through Perform, and an absent file is at most created
empty. -/
theorem perform_preserves_file (c : JsonCodec) (args : Arguments)
    (s : String) :
    (Perform c args (some s)).fst = some s
    ∧ ((Perform c args none).fst = none
      ∨ (Perform c args none).fst = some "") := by
  constructor
  · by_cases h1 : args.fileName = ""
    · simp [Perform, h1]
    · by_cases h2 : args.operation = ""
      · simp [Perform, h1, h2]
      · simp [Perform, openFile, h1, h2]
  · by_cases h1 : args.fileName = ""
    · exact Or.inl (by simp [Perform, h1])
    · by_cases h2 : args.operation = ""
      · exact Or.inl (by simp [Perform, h1, h2])
      · exact Or.inr (by simp [Perform, openFile, h1, h2])

/-- Claim C5 (code-behaviour record): on a zero-byte backing file the add
operation of `src/main.go` never consults the item decoder — a text the
decoder rejects is still accepted and echoed verbatim to the output with a
nil error, for every codec. -/
theorem addItem_empty_file_skips_item_parse :
    demoCodec.decUser "notjson" = .error "invalid character"
    ∧ addItem demoCodec (.ok "") "notjson" = ⟨none, "notjson"⟩
    ∧ (∀ c : JsonCodec, ∀ item : String,
        addItem c (.ok "") item = ⟨none, item⟩) :=
  ⟨rfl, rfl, fun _ _ => rfl⟩

/-- Claim C6 (code-behaviour record): adding the scenario record to an
empty backing file outputs the raw object text, not that object wrapped in
a single-element JSON array. -/
theorem addItem_empty_file_output_not_array :
    demoCodec.decUser item1 = .ok u1
    ∧ addItem demoCodec (.ok "") item1 = ⟨none, item1⟩
    ∧ marshalUsers [u1] = "[" ++ item1 ++ "]"
    ∧ item1 ≠ marshalUsers [u1] :=
  ⟨rfl, rfl, by decide, by decide⟩

/-- Claim C4 (code-behaviour record): two sequential adds of records with
distinct ids against the same initially empty backing file followed by list
give an empty list output, because no operation ever persists anything in
the file; the output does not re-parse to the two added records. -/
theorem add_add_list_not_persisted :
    (Perform demoCodec ⟨"users.json", "add", item1, ""⟩ (some "")).snd
      = ⟨none, item1⟩
    ∧ ((Perform demoCodec ⟨"users.json", "list", "", ""⟩
        ((Perform demoCodec ⟨"users.json", "add", item2, ""⟩
          ((Perform demoCodec ⟨"users.json", "add", item1, ""⟩
            (some "")).fst)).fst)).snd = ⟨none, ""⟩)
    ∧ demoCodec.decList "" = .error "unexpected end of JSON input"
    ∧ "" ≠ marshalUsers [u1, u2] := by
  refine ⟨rfl, rfl, rfl, by decide⟩

/-- Divergence record for `src/unnamed/part_000`: its add on a zero-byte
file hands the empty bytes to the list decoder and propagates the decode
failure instead of writing anything. -/
theorem part000_addItem_empty_file_fails :
    Part000.addItem demoCodec (.ok "") item1
      = ⟨some "unexpected end of JSON input", ""⟩ := rfl

/-- Divergence record for `src/unnamed/part_000`: its remove writes the
marshalled unchanged list when no record matches, and writes the not-found
message on a zero-byte file. -/
theorem part000_removeUser_divergence :
    Part000.removeUser demoCodec (.ok (marshalUsers [u1])) "9"
      = ⟨none, marshalUsers [u1]⟩
    ∧ Part000.removeUser demoCodec (.ok "") "9"
      = ⟨none, "Item with id 9 not found"⟩ := ⟨rfl, rfl⟩
